import Mathlib

/-!
Verification of the ZIP 233 ZSF-deposit feature of the `eigerco/zcash` node,
as exercised by `qa/rpc-tests/feature_zip233_zsf.py`.

The repository snapshot contains only the QA test; the node's consensus core
(activation registry, transaction codec, balance verifier, validation
pipeline, chain supply ledger) is described by the specification but its
implementation is not present.  Those components are therefore modelled from
the spec below; the concrete parameters (activation height 103, block reward
6.25 ZEC, the amounts 1.23 / 1.11 / 0.0001 ZEC, the user-facing error
message) come from the test itself.  All monetary amounts are in zatoshis
(1 ZEC = 100000000 zatoshis).
-/

namespace ZSF

/-- Modelled from the spec: the consensus `Transaction` shape (§3) — ordered
inputs (modelled as resolved outpoint references), ordered `(recipient,
value)` outputs, a non-negative `depositAmount` (0 ⇒ absent/inert), and
signature data attached by the signing pass.  The node's own transaction
type is not in the repository. -/
structure Transaction where
  inputs : List Nat
  outputs : List (Nat × Nat)
  depositAmount : Nat
  sigs : List Nat
  deriving DecidableEq

/-- Modelled from the spec: typed rejection reasons of the validation
pipeline (§7).  The node's error taxonomy is not in the repository. -/
inductive ValidationError where
  | DecodeError
  | FeatureNotActive
  | MissingInput
  | NegativeFee
  deriving DecidableEq

/-- Modelled from the spec: the RPC layer surfaces the rejection reason as a
user-facing message (§6); the `FeatureNotActive` text is the one asserted by
the QA test. -/
def errorMessage : ValidationError → String
  | .DecodeError => "TX decode failed"
  | .FeatureNotActive => "ZSF deposit is not supported at this block height."
  | .MissingInput => "Missing inputs"
  | .NegativeFee => "Insufficient funds"

/-! ### Transaction codec (modelled from §4.2)

Bytes are modelled as `List Nat`.  A natural number is encoded little-endian
base 256, length-prefixed; zero encodes with zero content bytes (canonical
absence).  Lists are count-prefixed.  The deposit field sits at a fixed
position of the layout. -/

/-- Little-endian base-256 digits of `n`, computed with explicit fuel so the
definition is structural (the first argument only bounds recursion depth). -/
def natToBytesFuel : Nat → Nat → List Nat
  | 0, _ => []
  | fuel + 1, n => if n = 0 then [] else n % 256 :: natToBytesFuel fuel (n / 256)

/-- Canonical little-endian base-256 digits of `n` (no trailing zero). -/
def natToBytes (n : Nat) : List Nat := natToBytesFuel n n

/-- Value of a little-endian base-256 digit list. -/
def bytesToNat (bs : List Nat) : Nat :=
  bs.foldr (fun b acc => b + 256 * acc) 0

/-- Modelled from the spec: a numeric field is length-prefixed; value 0
encodes as zero content bytes (§4.2). -/
def encNat (n : Nat) : List Nat := (natToBytes n).length :: natToBytes n

/-- Decoder for a length-prefixed numeric field; returns the value and the
remaining bytes. -/
def decNat : List Nat → Option (Nat × List Nat)
  | [] => none
  | l :: rest =>
    if l ≤ rest.length then some (bytesToNat (rest.take l), rest.drop l) else none

/-- Concatenation of the encodings of the elements of a list. -/
def encListBody (enc : α → List Nat) : List α → List Nat
  | [] => []
  | x :: xs => enc x ++ encListBody enc xs

/-- Modelled from the spec: a sequence field is count-prefixed (§4.2). -/
def encList (enc : α → List Nat) (xs : List α) : List Nat :=
  encNat xs.length ++ encListBody enc xs

/-- Decode exactly `k` consecutive elements with `dec`. -/
def decListWith (dec : List Nat → Option (α × List Nat)) :
    Nat → List Nat → Option (List α × List Nat)
  | 0, bs => some ([], bs)
  | k + 1, bs =>
    match dec bs with
    | none => none
    | some (x, bs1) =>
      match decListWith dec k bs1 with
      | none => none
      | some (xs, bs2) => some (x :: xs, bs2)

/-- Decode a count-prefixed sequence field. -/
def decList (dec : List Nat → Option (α × List Nat)) (bs : List Nat) :
    Option (List α × List Nat) :=
  match decNat bs with
  | none => none
  | some (k, bs1) => decListWith dec k bs1

/-- Encoding of a `(recipient, value)` output. -/
def encPair (p : Nat × Nat) : List Nat := encNat p.1 ++ encNat p.2

/-- Decoder for a `(recipient, value)` output. -/
def decPair (bs : List Nat) : Option ((Nat × Nat) × List Nat) :=
  match decNat bs with
  | none => none
  | some (a, bs1) =>
    match decNat bs1 with
    | none => none
    | some (b, bs2) => some ((a, b), bs2)

/-- Modelled from the spec: `encode(tx) -> bytes` (§4.2).  The deposit field
occupies a fixed position after the outputs; when zero it contributes its
length prefix and zero content bytes. -/
def encode (tx : Transaction) : List Nat :=
  encList encNat tx.inputs ++ encList encPair tx.outputs ++
    encNat tx.depositAmount ++ encList encNat tx.sigs

/-- Modelled from the spec: `decode(bytes) -> Transaction | DecodeError`
(§4.2), `none` standing for `DecodeError`; trailing garbage is rejected. -/
def decode (bs : List Nat) : Option Transaction :=
  match decList decNat bs with
  | none => none
  | some (ins, bs1) =>
    match decList decPair bs1 with
    | none => none
    | some (outs, bs2) =>
      match decNat bs2 with
      | none => none
      | some (d, bs3) =>
        match decList decNat bs3 with
        | none => none
        | some (ss, bs4) =>
          if bs4 = [] then some ⟨ins, outs, d, ss⟩ else none

theorem bytesToNat_cons (a : Nat) (l : List Nat) :
    bytesToNat (a :: l) = a + 256 * bytesToNat l := rfl

theorem bytesToNat_natToBytesFuel (fuel : Nat) :
    ∀ n : Nat, n ≤ fuel → bytesToNat (natToBytesFuel fuel n) = n := by
  induction fuel with
  | zero =>
    intro n hn
    have hz : n = 0 := by omega
    subst hz
    rfl
  | succ f ih =>
    intro n hn
    unfold natToBytesFuel
    by_cases h : n = 0
    · subst h
      rfl
    · rw [if_neg h, bytesToNat_cons, ih (n / 256) (by omega)]
      omega

theorem bytesToNat_natToBytes (n : Nat) : bytesToNat (natToBytes n) = n :=
  bytesToNat_natToBytesFuel n n (Nat.le_refl n)

theorem take_length_append (l₁ l₂ : List Nat) : (l₁ ++ l₂).take l₁.length = l₁ := by
  induction l₁ with
  | nil => rfl
  | cons a l ih => simp [List.cons_append, List.take, ih]

theorem drop_length_append (l₁ l₂ : List Nat) : (l₁ ++ l₂).drop l₁.length = l₂ := by
  induction l₁ with
  | nil => rfl
  | cons a l ih => simp [List.cons_append, List.drop, ih]

theorem decNat_encNat (n : Nat) (rest : List Nat) :
    decNat (encNat n ++ rest) = some (n, rest) := by
  show decNat ((natToBytes n).length :: (natToBytes n ++ rest)) = some (n, rest)
  simp only [decNat]
  rw [if_pos (by simp [List.length_append])]
  rw [take_length_append, drop_length_append, bytesToNat_natToBytes]

theorem decListWith_encListBody (dec : List Nat → Option (α × List Nat))
    (enc : α → List Nat)
    (hround : ∀ x rest, dec (enc x ++ rest) = some (x, rest)) :
    ∀ (xs : List α) (rest : List Nat),
      decListWith dec xs.length (encListBody enc xs ++ rest) = some (xs, rest) := by
  intro xs
  induction xs with
  | nil => intro rest; rfl
  | cons x xs ih =>
    intro rest
    show decListWith dec (xs.length + 1) (encListBody enc (x :: xs) ++ rest) = _
    unfold decListWith
    rw [show encListBody enc (x :: xs) ++ rest = enc x ++ (encListBody enc xs ++ rest) by
      simp [encListBody, List.append_assoc]]
    rw [hround]
    simp only []
    rw [ih rest]

theorem decList_encList (dec : List Nat → Option (α × List Nat))
    (enc : α → List Nat)
    (hround : ∀ x rest, dec (enc x ++ rest) = some (x, rest))
    (xs : List α) (rest : List Nat) :
    decList dec (encList enc xs ++ rest) = some (xs, rest) := by
  unfold encList decList
  rw [List.append_assoc, decNat_encNat]
  simp only []
  exact decListWith_encListBody dec enc hround xs rest

theorem decPair_encPair (p : Nat × Nat) (rest : List Nat) :
    decPair (encPair p ++ rest) = some (p, rest) := by
  obtain ⟨a, b⟩ := p
  unfold encPair decPair
  rw [List.append_assoc, decNat_encNat]
  simp only []
  rw [decNat_encNat]

/-- Round-trip of the codec, shared backbone of several results below. -/
theorem decode_encode (tx : Transaction) : decode (encode tx) = some tx := by
  obtain ⟨ins, outs, d, ss⟩ := tx
  unfold encode decode
  simp only [List.append_assoc]
  rw [decList_encList decNat encNat decNat_encNat]
  simp only []
  rw [decList_encList decPair encPair decPair_encPair]
  simp only []
  rw [decNat_encNat]
  simp only []
  have h := decList_encList decNat encNat decNat_encNat ss []
  rw [List.append_nil] at h
  rw [h]
  rfl

/-! ### Activation registry, balance verifier, validation pipeline -/

/-- Modelled from the spec: the Activation Registry predicate
`isActive(upgradeId, height)` (§4.1), specialised to the single upgrade the
test exercises; a height is active iff it is at or above the activation
height ("active from", inclusive). -/
def isActive (activationHeight height : Nat) : Bool :=
  decide (activationHeight ≤ height)

/-- Modelled from the spec: the activation height the QA test configures for
the ZSF upgrade, `nuparams(ZFUTURE_BRANCH_ID, 103)`. -/
def zsfActivationHeight : Nat := 103

/-- Sum of a transaction's output values. -/
def outputTotal (tx : Transaction) : Nat :=
  (tx.outputs.map Prod.snd).sum

/-- Modelled from the spec: the Balance Verifier (§4.3) —
`fee = Σ resolvedInputValues − Σ outputs − depositAmount`, rejected with
`NegativeFee` when the fee would be negative. -/
def verify (tx : Transaction) (resolvedInputValues : List Nat) :
    Except ValidationError Nat :=
  if (resolvedInputValues.sum : Int) - outputTotal tx - tx.depositAmount < 0 then
    .error .NegativeFee
  else
    .ok ((resolvedInputValues.sum : Int) - outputTotal tx - tx.depositAmount).toNat

/-- The two entry points of the validation pipeline (§4.4). -/
inductive EntryPoint where
  | mempool
  | blockConnect
  deriving DecidableEq

/-- Modelled from the spec: the height at which activation is checked
(§4.4 step 2) — for mempool acceptance the argument is the tip height and
the applicable height is the next block; for block connection the argument
is the block's own height. -/
def applicableHeight : EntryPoint → Nat → Nat
  | .mempool, tip => tip + 1
  | .blockConnect, h => h

/-- Modelled from the spec: steps 2–5 of the Validation Pipeline (§4.4) for
an already-decoded transaction: the activation gate on a non-zero deposit is
evaluated strictly before input resolution and balance checking; an
unresolvable input set is `MissingInput`; otherwise the Balance Verifier
decides.  Returns the fee on acceptance. -/
def validateTx (activationHeight height : Nat) (tx : Transaction)
    (resolved : Option (List Nat)) : Except ValidationError Nat :=
  if tx.depositAmount ≠ 0 ∧ isActive activationHeight height = false then
    .error .FeatureNotActive
  else
    match resolved with
    | none => .error .MissingInput
    | some vals => verify tx vals

/-! ### Chain supply ledger and node state -/

/-- Modelled from the spec: a block — its height, its subsidy (supplied by
the external subsidy schedule), and its transactions (§3). -/
structure Block where
  height : Nat
  subsidy : Nat
  transactions : List Transaction
  deriving DecidableEq

/-- Total deposit amount carried by a block's transactions. -/
def blockDeposits (b : Block) : Nat :=
  (b.transactions.map Transaction.depositAmount).sum

/-- Modelled from the spec: the Chain Supply Ledger `connect` (§4.5) —
`chainValue` gains the block's subsidy and loses its deposits. -/
def connect (chainValue : Int) (b : Block) : Int :=
  chainValue + b.subsidy - blockDeposits b

/-- Modelled from the spec: the Chain Supply Ledger `disconnect` (§4.5), the
exact algebraic inverse of `connect`. -/
def disconnect (chainValue : Int) (b : Block) : Int :=
  chainValue - b.subsidy + blockDeposits b

/-- Chain value after connecting a sequence of blocks in order. -/
def connectAll (chainValue : Int) (bs : List Block) : Int :=
  bs.foldl connect chainValue

/-- Sum of the subsidies of a list of blocks. -/
def subsidySum (bs : List Block) : Nat := (bs.map Block.subsidy).sum

/-- Sum of the deposits of a list of blocks. -/
def depositSum (bs : List Block) : Nat := (bs.map blockDeposits).sum

/-- Modelled from the spec: the observable state of one node — the tip
height, the supply ledger's `chainValue` (0 at genesis), and the mempool
(§3, §4.4). -/
structure NodeState where
  tipHeight : Nat
  chainValue : Int
  mempool : List Transaction
  deriving DecidableEq

/-- Modelled from the spec: the mempool entry point of the Validation
Pipeline (§4.4) — the transaction is validated at height tip + 1 against the
resolver; on acceptance it joins the mempool, on rejection the state is
returned unchanged together with the typed error. -/
def submitToMempool (activationHeight : Nat) (s : NodeState) (tx : Transaction)
    (r : Transaction → Option (List Nat)) : NodeState × Option ValidationError :=
  match validateTx activationHeight (s.tipHeight + 1) tx (r tx) with
  | .error e => (s, some e)
  | .ok _ => ({ s with mempool := s.mempool ++ [tx] }, none)

/-- Modelled from the spec: block connection (§4.4 step 6, §4.5) — the tip
advances to the block's height, the ledger is updated by `connect`, and the
block's transactions leave the mempool. -/
def connectBlockState (s : NodeState) (b : Block) : NodeState :=
  { tipHeight := b.height,
    chainValue := connect s.chainValue b,
    mempool := s.mempool.filter (fun tx => decide (tx ∉ b.transactions)) }

/-- Node state after connecting a sequence of blocks in order. -/
def connectAllState (s : NodeState) (bs : List Block) : NodeState :=
  bs.foldl connectBlockState s

/-- Modelled from the spec: the inspection view (§4.2, §6) — the
`zsfDeposit` field reported for a serialized transaction, obtained by
decoding the bytes. -/
def reportedDeposit (bs : List Nat) : Option Nat :=
  (decode bs).map Transaction.depositAmount

/-! ### Construction helper, funding, signing (modelled from §4.6) -/

/-- Modelled from the spec: the Transaction Construction Helper
`build(outputs, depositAmount)` (§4.6) — an unfunded, unsigned shape. -/
def build (outputs : List (Nat × Nat)) (depositAmount : Nat) : Transaction :=
  { inputs := [], outputs := outputs, depositAmount := depositAmount, sigs := [] }

/-- Modelled from the spec: the funding pass (§4.6) — selects inputs and may
append a change output; the deposit field is carried unchanged. -/
def fund (tx : Transaction) (selectedInputs : List Nat)
    (change : Option (Nat × Nat)) : Transaction :=
  { tx with inputs := tx.inputs ++ selectedInputs,
            outputs := tx.outputs ++ change.toList }

/-- Modelled from the spec: the signing pass (§4.6) — attaches signature
data; consensus fields, the deposit among them, are carried unchanged. -/
def sign (tx : Transaction) (signatures : List Nat) : Transaction :=
  { tx with sigs := signatures }

/-! ### Wallet-side accounting (derived, §3 WalletBalance) -/

/-- Value of a transaction's outputs addressed to `who`. -/
def outputsTo (who : Nat) (tx : Transaction) : Nat :=
  ((tx.outputs.filter (fun o => decide (o.1 = who))).map Prod.snd).sum

/-- Value the transaction sends away from `sender` (outputs not returning to
the sender as change). -/
def sendAmount (sender : Nat) (tx : Transaction) : Nat :=
  outputTotal tx - outputsTo sender tx

/-- Net change of the sender's balance caused by the transaction: the change
returned to the sender minus the inputs spent. -/
def senderBalanceDelta (sender : Nat) (tx : Transaction) (vals : List Nat) : Int :=
  (outputsTo sender tx : Int) - vals.sum

/-! ### Concrete scenario data from the QA test -/

/-- Block reward of the test chain, 6.25 ZEC in zatoshis. -/
def BLOCK_REWARD : Nat := 625000000

/-- The deposit-carrying transaction of the test: one mature 6.25 ZEC
coinbase input, a 1.23 ZEC payment to Bob, change back to Alice, a 1.11 ZEC
ZSF deposit, fee 0.0001 ZEC. -/
def scenarioTx : Transaction :=
  { inputs := [0],
    outputs := [(1, 123000000), (0, 390990000)],
    depositAmount := 111000000,
    sigs := [] }

/-- The 101 pre-activation blocks of the test chain, each with an empty
transaction list and full subsidy. -/
def preActivationChain : List Block :=
  (List.range 101).map (fun i => { height := i + 1, subsidy := BLOCK_REWARD, transactions := [] })

/-- Block 102 of the test chain (first block after the pre-activation wait). -/
def block102 : Block := { height := 102, subsidy := BLOCK_REWARD, transactions := [] }

/-- Block 103 of the test chain: the activation-height block that mines the
deposit-carrying transaction. -/
def block103 : Block := { height := 103, subsidy := BLOCK_REWARD, transactions := [scenarioTx] }

/-- A node at tip height 102, as seen just before the successful submission. -/
def nodeA : NodeState := { tipHeight := 102, chainValue := 63750000000, mempool := [] }

/-- The resolver of the test scenario: every input set resolves to one
mature 6.25 ZEC coinbase. -/
def resolverW : Transaction → Option (List Nat) := fun _ => some [625000000]

/-! ### Shared lemmas about the pipeline and the ledger -/

theorem validateTx_inactive (a H : Nat) (tx : Transaction) (res : Option (List Nat))
    (hd : tx.depositAmount ≠ 0) (hH : H < a) :
    validateTx a H tx res = Except.error ValidationError.FeatureNotActive := by
  unfold validateTx
  rw [if_pos ⟨hd, by simp only [isActive, decide_eq_false_iff_not]; omega⟩]

theorem validateTx_accepts (a H : Nat) (tx : Transaction) (vals : List Nat)
    (hH : a ≤ H) (hbal : outputTotal tx + tx.depositAmount ≤ vals.sum) :
    validateTx a H tx (some vals) =
      Except.ok (vals.sum - (outputTotal tx + tx.depositAmount)) := by
  unfold validateTx
  rw [if_neg]
  · show verify tx vals = _
    unfold verify
    rw [if_neg (by omega)]
    congr 1
    omega
  · rintro ⟨-, hfalse⟩
    simp only [isActive, decide_eq_false_iff_not] at hfalse
    omega

theorem verify_ok (tx : Transaction) (vals : List Nat) (fee : Nat)
    (h : verify tx vals = Except.ok fee) :
    vals.sum = outputTotal tx + tx.depositAmount + fee := by
  unfold verify at h
  split at h
  · exact absurd h (by simp)
  · rename_i hge
    simp only [Except.ok.injEq] at h
    omega

theorem sum_filter_le (p : Nat × Nat → Bool) (l : List (Nat × Nat)) :
    ((l.filter p).map Prod.snd).sum ≤ (l.map Prod.snd).sum := by
  induction l with
  | nil => simp
  | cons o os ih =>
    by_cases h : p o = true
    · simp only [List.filter_cons, h, if_pos, List.map_cons, List.sum_cons]
      omega
    · simp only [List.filter_cons, h, if_neg, List.map_cons, List.sum_cons, Bool.false_eq_true,
        ite_false]
      omega

theorem connectAll_cons (cv : Int) (b : Block) (bs : List Block) :
    connectAll cv (b :: bs) = connectAll (connect cv b) bs := rfl

theorem connectAll_eq (cv : Int) (bs : List Block) :
    connectAll cv bs = cv + subsidySum bs - depositSum bs := by
  induction bs generalizing cv with
  | nil => simp [connectAll, subsidySum, depositSum]
  | cons b bs ih =>
    rw [connectAll_cons, ih]
    simp only [connect, subsidySum, depositSum, List.map_cons, List.sum_cons]
    push_cast
    ring

theorem submit_fst_chainValue (a : Nat) (s : NodeState) (tx : Transaction)
    (r : Transaction → Option (List Nat)) :
    (submitToMempool a s tx r).1.chainValue = s.chainValue := by
  unfold submitToMempool
  cases validateTx a (s.tipHeight + 1) tx (r tx) with
  | error e => rfl
  | ok fee => rfl

theorem connectBlockState_chainValue (s : NodeState) (b : Block) :
    (connectBlockState s b).chainValue = connect s.chainValue b := rfl

theorem connectAllState_chainValue (s : NodeState) (bs : List Block) :
    (connectAllState s bs).chainValue = connectAll s.chainValue bs := by
  induction bs generalizing s with
  | nil => rfl
  | cons b bs ih => exact ih (connectBlockState s b)

/-! ### Claims -/

/-- Claim C1: below the ZSF activation height, a transaction with
`depositAmount > 0` is rejected with `FeatureNotActive`, surfaced to the
submitter as "ZSF deposit is not supported at this block height."; at or
above the activation height the same otherwise-valid transaction is
accepted. -/
theorem C1 (a H : Nat) (tx : Transaction) (vals : List Nat)
    (hd : 0 < tx.depositAmount) :
    errorMessage ValidationError.FeatureNotActive =
        "ZSF deposit is not supported at this block height." ∧
    (H < a →
      validateTx a H tx (some vals) = Except.error ValidationError.FeatureNotActive) ∧
    (a ≤ H → outputTotal tx + tx.depositAmount ≤ vals.sum →
      validateTx a H tx (some vals) =
        Except.ok (vals.sum - (outputTotal tx + tx.depositAmount))) := by
  refine ⟨rfl, ?_, ?_⟩
  · intro hH
    exact validateTx_inactive a H tx (some vals) (by omega) hH
  · intro hH hbal
    exact validateTx_accepts a H tx vals hH hbal

/-- Witness for C1 at the test's concrete transaction and heights. -/
theorem C1_witness :
    0 < scenarioTx.depositAmount ∧
    validateTx 103 102 scenarioTx (some [625000000]) =
      Except.error ValidationError.FeatureNotActive ∧
    validateTx 103 103 scenarioTx (some [625000000]) = Except.ok 10000 := by
  refine ⟨by decide, (C1 103 102 scenarioTx [625000000] (by decide)).2.1 (by decide), ?_⟩
  have h := (C1 103 103 scenarioTx [625000000] (by decide)).2.2 (by decide) (by decide)
  rw [h]
  rfl

/-- Claim C2: after connecting blocks with subsidies `s_1..s_N` and deposits
summing to `D`, `chainValue = Σ s_i − D`; a single connection changes
`chainValue` by exactly subsidy minus the block's deposits, and
disconnection restores the exact pre-connect value. -/
theorem C2 :
    (∀ bs : List Block, connectAll 0 bs = (subsidySum bs : Int) - depositSum bs) ∧
    (∀ (cv : Int) (b : Block), connect cv b = cv + b.subsidy - blockDeposits b) ∧
    (∀ (cv : Int) (b : Block), disconnect (connect cv b) b = cv) := by
  refine ⟨?_, fun cv b => rfl, ?_⟩
  · intro bs
    rw [connectAll_eq]
    ring
  · intro cv b
    unfold connect disconnect
    ring

set_option maxRecDepth 10000 in
/-- Claim C3: the literal test scenario in zatoshis — at height 101 the
chain value is 6.25 × 101 ZEC; the 1.23 ZEC send with a 1.11 ZEC deposit is
rejected at tip 101 (next block 102, pre-activation); the identical call at
tip 102 (next block 103, the activation height) is accepted with fee
0.0001 ZEC; after mining it at height 103 the chain value is
6.25 × 103 − 1.11 ZEC. -/
theorem C3 :
    connectAll 0 preActivationChain = 625000000 * 101 ∧
    validateTx zsfActivationHeight (applicableHeight EntryPoint.mempool 101) scenarioTx
        (some [625000000]) = Except.error ValidationError.FeatureNotActive ∧
    validateTx zsfActivationHeight (applicableHeight EntryPoint.mempool 102) scenarioTx
        (some [625000000]) = Except.ok 10000 ∧
    connectAll 0 (preActivationChain ++ [block102, block103]) =
      625000000 * 103 - 111000000 := by
  refine ⟨by decide, rfl, rfl, by decide⟩

/-- Claim C4: a transaction is accepted only if the resolved input values
cover outputs plus deposit; the fee is `Σ inputs − Σ outputs − deposit` and
a negative fee is rejected with `NegativeFee`; the sender's balance change
of an accepted send is exactly −(sendAmount + deposit + fee). -/
theorem C4 :
    (∀ (tx : Transaction) (vals : List Nat),
        vals.sum < outputTotal tx + tx.depositAmount →
        verify tx vals = Except.error ValidationError.NegativeFee) ∧
    (∀ (tx : Transaction) (vals : List Nat) (fee : Nat),
        verify tx vals = Except.ok fee →
        vals.sum = outputTotal tx + tx.depositAmount + fee) ∧
    (∀ (sender : Nat) (tx : Transaction) (vals : List Nat) (fee : Nat),
        verify tx vals = Except.ok fee →
        senderBalanceDelta sender tx vals =
          -((sendAmount sender tx : Int) + tx.depositAmount + fee)) := by
  refine ⟨?_, verify_ok, ?_⟩
  · intro tx vals h
    unfold verify
    rw [if_pos (by omega)]
  · intro sender tx vals fee h
    have hs := verify_ok tx vals fee h
    have hle := sum_filter_le (fun o => decide (o.1 = sender)) tx.outputs
    simp only [senderBalanceDelta, sendAmount, outputsTo, outputTotal] at hs ⊢
    omega

/-- Witness for C4 at the test's concrete transaction. -/
theorem C4_witness :
    verify scenarioTx [600000000] = Except.error ValidationError.NegativeFee ∧
    [625000000].sum = outputTotal scenarioTx + scenarioTx.depositAmount + 10000 ∧
    senderBalanceDelta 0 scenarioTx [625000000] =
      -((sendAmount 0 scenarioTx : Int) + scenarioTx.depositAmount + 10000) := by
  refine ⟨C4.1 scenarioTx [600000000] (by decide),
    C4.2.1 scenarioTx [625000000] 10000 rfl,
    C4.2.2 0 scenarioTx [625000000] 10000 rfl⟩

/-- Claim C5: a transaction built with a non-zero deposit reports the same
`zsfDeposit` when decoded raw, funded, and signed, and a peer node decoding
the relayed bytes reports the same value — no stage drops or mutates the
field. -/
theorem C5 (outs : List (Nat × Nat)) (d : Nat) (ins : List Nat)
    (change : Option (Nat × Nat)) (sg : List Nat) (_hd : 0 < d) :
    (decode (encode (build outs d))).map Transaction.depositAmount = some d ∧
    (decode (encode (fund (build outs d) ins change))).map
        Transaction.depositAmount = some d ∧
    (decode (encode (sign (fund (build outs d) ins change) sg))).map
        Transaction.depositAmount = some d ∧
    decode (encode (sign (fund (build outs d) ins change) sg)) =
      some (sign (fund (build outs d) ins change) sg) := by
  refine ⟨?_, ?_, ?_, decode_encode _⟩ <;>
    simp [decode_encode, build, fund, sign]

/-- Witness for C5 at the test's concrete amounts. -/
theorem C5_witness :
    0 < 111000000 ∧
    (decode (encode (build [(1, 123000000)] 111000000))).map
        Transaction.depositAmount = some 111000000 :=
  ⟨by decide, (C5 [(1, 123000000)] 111000000 [0] (some (0, 390990000)) [7] (by decide)).1⟩

/-- Claim C6: the applicable height for the activation check is tip + 1 for
mempool acceptance and the block's own height for block connection; hence a
deposit-carrying submission with the tip exactly one below the activation
height is accepted, while a tip two or more below is rejected with
`FeatureNotActive`. -/
theorem C6 :
    (∀ tip, applicableHeight EntryPoint.mempool tip = tip + 1) ∧
    (∀ h, applicableHeight EntryPoint.blockConnect h = h) ∧
    (∀ (a tip : Nat) (tx : Transaction) (vals : List Nat),
        tip + 1 = a →
        outputTotal tx + tx.depositAmount ≤ vals.sum →
        validateTx a (applicableHeight EntryPoint.mempool tip) tx (some vals) =
          Except.ok (vals.sum - (outputTotal tx + tx.depositAmount))) ∧
    (∀ (a tip : Nat) (tx : Transaction) (res : Option (List Nat)),
        tx.depositAmount ≠ 0 → tip + 2 ≤ a →
        validateTx a (applicableHeight EntryPoint.mempool tip) tx res =
          Except.error ValidationError.FeatureNotActive) := by
  refine ⟨fun _ => rfl, fun _ => rfl, ?_, ?_⟩
  · intro a tip tx vals ha hbal
    exact validateTx_accepts a (tip + 1) tx vals (by omega) hbal
  · intro a tip tx res hd ha
    exact validateTx_inactive a (tip + 1) tx res hd (by omega)

/-- Witness for C6 at the test's concrete heights. -/
theorem C6_witness :
    applicableHeight EntryPoint.mempool 101 = 102 ∧
    validateTx 103 (applicableHeight EntryPoint.mempool 102) scenarioTx
      (some [625000000]) = Except.ok 10000 ∧
    validateTx 103 (applicableHeight EntryPoint.mempool 101) scenarioTx
      (some [625000000]) = Except.error ValidationError.FeatureNotActive := by
  refine ⟨C6.1 101, ?_,
    C6.2.2.2 103 101 scenarioTx (some [625000000]) (by decide) (by decide)⟩
  have h := C6.2.2.1 103 102 scenarioTx [625000000] (by decide) (by decide)
  rw [h]
  rfl

/-- Claim C7: the codec round trip — `decode (encode t) = t` for every
representable transaction, whether its deposit is zero or positive, so a
transaction encoded by one node decodes identically on another. -/
theorem C7 : ∀ tx : Transaction, decode (encode tx) = some tx :=
  decode_encode

/-- Claim C8: `chainValue` is mutated only by block connection and
disconnection, never by mempool acceptance; the deposit is subtracted
exactly once, at the moment the containing block is connected. -/
theorem C8 :
    (∀ (a : Nat) (s : NodeState) (tx : Transaction)
        (r : Transaction → Option (List Nat)),
        (submitToMempool a s tx r).1.chainValue = s.chainValue) ∧
    (∀ (s : NodeState) (b : Block),
        (connectBlockState s b).chainValue =
          s.chainValue + b.subsidy - blockDeposits b) ∧
    (∀ (a : Nat) (s : NodeState) (tx : Transaction)
        (r : Transaction → Option (List Nat)) (b : Block),
        b.transactions = [tx] →
        (connectBlockState (submitToMempool a s tx r).1 b).chainValue =
          s.chainValue + b.subsidy - tx.depositAmount) := by
  refine ⟨submit_fst_chainValue, fun s b => rfl, ?_⟩
  intro a s tx r b hb
  rw [connectBlockState_chainValue, submit_fst_chainValue]
  unfold connect blockDeposits
  rw [hb]
  simp

/-- Witness for C8 at the test's concrete block 103. -/
theorem C8_witness :
    (connectBlockState (submitToMempool 103 nodeA scenarioTx resolverW).1
        block103).chainValue =
      nodeA.chainValue + block103.subsidy - scenarioTx.depositAmount :=
  C8.2.2 103 nodeA scenarioTx resolverW block103 rfl

/-- Claim C9: a submission rejected by the pipeline leaves the node state
exactly unchanged, and once the activation condition holds the identical
call succeeds, appending the transaction to the mempool once with no
residue of the rejected attempt. -/
theorem C9 :
    (∀ (a : Nat) (s st : NodeState) (tx : Transaction)
        (r : Transaction → Option (List Nat)) (e : ValidationError),
        submitToMempool a s tx r = (st, some e) → st = s) ∧
    (∀ (a : Nat) (s : NodeState) (tx : Transaction)
        (r : Transaction → Option (List Nat)) (vals : List Nat),
        r tx = some vals → a ≤ s.tipHeight + 1 →
        outputTotal tx + tx.depositAmount ≤ vals.sum →
        submitToMempool a s tx r =
          ({ s with mempool := s.mempool ++ [tx] }, none)) := by
  constructor
  · intro a s st tx r e h
    unfold submitToMempool at h
    split at h
    · simp only [Prod.mk.injEq] at h
      exact h.1.symm
    · simp at h
  · intro a s tx r vals hr hH hbal
    unfold submitToMempool
    rw [hr, validateTx_accepts a (s.tipHeight + 1) tx vals hH hbal]

/-- Witness for C9 at the test's concrete post-activation submission. -/
theorem C9_witness :
    submitToMempool 103 nodeA scenarioTx resolverW =
      ({ nodeA with mempool := nodeA.mempool ++ [scenarioTx] }, none) :=
  C9.2 103 nodeA scenarioTx resolverW [625000000] rfl (by decide) (by decide)

/-- Claim C10: supply accounting is deterministic across nodes — two nodes
with equal chain value (regardless of their mempools) report equal chain
value after connecting the same blocks, and the `zsfDeposit` reported for
the same transaction bytes is the transaction's deposit on every node. -/
theorem C10 :
    (∀ (s1 s2 : NodeState) (bs : List Block), s1.chainValue = s2.chainValue →
        (connectAllState s1 bs).chainValue = (connectAllState s2 bs).chainValue) ∧
    (∀ tx : Transaction, reportedDeposit (encode tx) = some tx.depositAmount) := by
  constructor
  · intro s1 s2 bs h
    rw [connectAllState_chainValue, connectAllState_chainValue, h]
  · intro tx
    simp [reportedDeposit, decode_encode]

/-- Witness for C10: two nodes with different mempools agree on the chain
value after connecting the test's block 103. -/
theorem C10_witness :
    (connectAllState { tipHeight := 0, chainValue := 0, mempool := [] }
        [block103]).chainValue =
      (connectAllState { tipHeight := 0, chainValue := 0, mempool := [scenarioTx] }
        [block103]).chainValue :=
  C10.1 { tipHeight := 0, chainValue := 0, mempool := [] }
    { tipHeight := 0, chainValue := 0, mempool := [scenarioTx] } [block103] rfl

end ZSF
